/-
Verification of the spatial-temporal deconfliction core of the
Centralised Deconfliction System for drones.

Shallow embedding of:
  * src/deconfliction_engine.py  (trajectory generation, time alignment,
    conflict detection, mission check, suggestion generation)
  * src/database.py              (future-trajectory store: put / query,
    current-position lookup)

Modelling conventions
  * `datetime` values are rational numbers of seconds since an arbitrary
    epoch; `timedelta` arithmetic is plain rational arithmetic.
  * Positions are triples of rationals.  `np.linalg.norm` returns an
    irrational real in general, so it is treated as an abstract parameter
    `nrm : Vec3 → ℚ` wherever the source uses it for time allocation;
    theorems assume only that it is nonnegative and vanishes exactly on
    the zero vector, which the Euclidean norm satisfies.  Where the source
    only *compares* a norm against `safety_buffer`, the comparison is
    embedded on squares (`dist < b  ↔  0 < b ∧ dist² < b²`), which is
    exact and keeps everything rational.
  * SQLite rows are records; a table is a list of rows in rowid
    (insertion) order.  `strftime('%Y-%m-%d %H:%M:%S')` truncates a
    timestamp to whole seconds, embedded as `⌊·⌋`.  `ORDER BY` is a
    stable sort on the given key.
  * Logging and the append-only `conflicts` log table are side effects
    with no influence on any checked value and are not modelled.
-/
import Mathlib

set_option maxRecDepth 4000

/-! ## Positions -/

/-- A 3D position `[x, y, z]` in meters. -/
abbrev Vec3 : Type := ℚ × ℚ × ℚ

def vadd (a b : Vec3) : Vec3 := (a.1 + b.1, a.2.1 + b.2.1, a.2.2 + b.2.2)

def vsub (a b : Vec3) : Vec3 := (a.1 - b.1, a.2.1 - b.2.1, a.2.2 - b.2.2)

def smul (c : ℚ) (v : Vec3) : Vec3 := (c * v.1, c * v.2.1, c * v.2.2)

/-- Squared Euclidean norm: `np.linalg.norm(v) ** 2`, exactly rational. -/
def sqNorm (v : Vec3) : ℚ := v.1 ^ 2 + v.2.1 ^ 2 + v.2.2 ^ 2

/-- The L1 norm.  On axis-aligned vectors (all concrete inputs used in the
closed theorems below are axis-aligned or zero) it coincides with the
Euclidean norm, so it can stand in for `np.linalg.norm` there. -/
def nrmL1 (v : Vec3) : ℚ := |v.1| + |v.2.1| + |v.2.2|

/-! ## Engine configuration (DeconflictionEngine.__init__) -/

/-- `DeconflictionEngine(safety_buffer, time_resolution, lookahead_time)`.
Defaults 5.0, 0.1, 30.0 from `deconfliction_engine.py:18`. -/
structure DeconflictionEngine where
  safety_buffer : ℚ := 5
  time_resolution : ℚ := 1/10
  lookahead_time : ℚ := 30
deriving DecidableEq, Repr

/-- `self.TIME_TOLERANCE = 0.5`, set unconditionally in `__init__`. -/
def TIME_TOLERANCE : ℚ := 1/2

/-- The engine with all constructor defaults. -/
def engD : DeconflictionEngine := {}

/-! ## Trajectory points -/

/-- One 4D trajectory sample, as produced by `generate_4d_trajectory` and
returned by `get_future_trajectories`.  The stationary-drone sample at
`deconfliction_engine.py:94` carries no `segment`/`is_waypoint` keys in the
source dict; downstream reads use `.get('segment', 0)` and
`.get('is_waypoint', False)`, so it is embedded with those defaults. -/
structure Pt where
  drone_id : ℕ
  timestamp : ℚ
  position : Vec3
  segment : ℕ
  waypoint_index : Option ℕ
  is_waypoint : Bool
deriving DecidableEq, Repr

/-! ## generate_4d_trajectory (deconfliction_engine.py:54-154) -/

/-- Python `int(q)`: truncation toward zero. -/
def pyInt (q : ℚ) : ℤ := if 0 ≤ q then ⌊q⌋ else -⌊-q⌋

/-- `steps = max(1, int(seg_time / self.time_resolution))`
(deconfliction_engine.py:122). -/
def stepsFor (eng : DeconflictionEngine) (seg_time : ℚ) : ℕ :=
  max 1 (pyInt (seg_time / eng.time_resolution)).toNat

/-- Consecutive pairs of a point list: `zip(all_points[:-1], all_points[1:])`. -/
def segsOf : List Vec3 → List (Vec3 × Vec3)
  | p1 :: p2 :: rest => (p1, p2) :: segsOf (p2 :: rest)
  | _ => []

/-- The inner `for step in range(steps + 1)` loop of one segment
(deconfliction_engine.py:124-139). -/
def segPoints (did : ℕ) (segIdx : ℕ) (p1 p2 : Vec3) (seg_time cur : ℚ)
    (steps : ℕ) : List Pt :=
  (List.range (steps + 1)).map fun (step : ℕ) =>
    let t : ℚ := if steps = 0 then 0 else (step : ℚ) / (steps : ℚ)
    { drone_id := did
      timestamp := cur + seg_time * t
      position := vadd p1 (smul t (vsub p2 p1))
      segment := segIdx
      waypoint_index := if t = 0 then some segIdx else none
      is_waypoint := step = steps }

/-- The outer `for segment_idx, (p1, p2, seg_time) in enumerate(zip(...))`
loop, threading `current_time` (deconfliction_engine.py:114-141). -/
def buildTraj (eng : DeconflictionEngine) (did : ℕ) :
    List ((Vec3 × Vec3) × ℚ) → ℕ → ℚ → List Pt
  | [], _, _ => []
  | ((p1, p2), seg_time) :: rest, idx, cur =>
      segPoints did idx p1 p2 seg_time cur (stepsFor eng seg_time)
        ++ buildTraj eng did rest (idx + 1) (cur + seg_time)

/-- `generate_4d_trajectory(self, drone_id, start_pos, waypoints, start_time,
end_time)` (deconfliction_engine.py:54-154).  `nrm` stands for
`np.linalg.norm` applied to the difference of consecutive points; the
`prep_time` computed at line 106 is never used (both branches of the
`if i == 0` assign the same proportional formula), so it is not modelled. -/
def generate_4d_trajectory (eng : DeconflictionEngine) (nrm : Vec3 → ℚ)
    (drone_id : ℕ) (start_pos : Vec3) (waypoints : List Vec3)
    (start_time end_time : ℚ) : List Pt :=
  if waypoints = [] then []
  else
    let all_points := start_pos :: waypoints
    let mission_duration := end_time - start_time
    if mission_duration ≤ 0 then []
    else
      let distances := (segsOf all_points).map fun pq => nrm (vsub pq.2 pq.1)
      let total_distance := distances.sum
      if total_distance = 0 then
        -- drone stays in place: single sample (py:92-99)
        [{ drone_id := drone_id, timestamp := start_time,
           position := start_pos, segment := 0,
           waypoint_index := some 0, is_waypoint := false }]
      else
        let segment_times := distances.map fun d =>
          d / total_distance * mission_duration
        let traj := buildTraj eng drone_id
          ((segsOf all_points).zip segment_times) 0 start_time
        -- `if trajectory and not trajectory[-1]['is_waypoint']` (py:144)
        match traj.getLast? with
        | some lastPt =>
            if lastPt.is_waypoint then traj
            else traj ++ [{ drone_id := drone_id, timestamp := end_time,
                            position := all_points.getLastD start_pos,
                            segment := segment_times.length - 1,
                            waypoint_index := some waypoints.length,
                            is_waypoint := true }]
        | none => traj

/-! ## align_trajectories_by_time (deconfliction_engine.py:157-201)

Timestamps in stored/in-memory trajectory dicts may be `datetime` objects or
strings; strings are parsed with `fromisoformat` or
`strptime('%Y-%m-%d %H:%M:%S')` and a sample is skipped when both fail.
`TSVal` abstracts this: `dt t` is a datetime, `strGood t` a string that one
of the recognized formats parses to time `t`, `strBad n` an unparseable
string (tagged so distinct bad strings stay distinct). -/

inductive TSVal
  | dt (t : ℚ)
  | strGood (t : ℚ)
  | strBad (n : ℕ)
deriving DecidableEq, Repr

/-- The parse cascade of deconfliction_engine.py:166-175 (and 183-190). -/
def parseTS : TSVal → Option ℚ
  | .dt t => some t
  | .strGood t => some t
  | .strBad _ => none

/-- A trajectory sample as seen by the aligner when timestamps may still be
raw strings; only the fields the aligner and conflict check touch. -/
structure RawPt where
  drone_id : ℕ
  timestamp : TSVal
  position : Vec3
deriving DecidableEq, Repr

/-- The inner scan over `traj2` tracking `(closest_point, min_diff)`
(deconfliction_engine.py:177-196), starting from
`closest_point = None, min_diff = inf`:  `none` is that initial state, so
the update guard `time_diff < min_diff and time_diff <= TIME_TOLERANCE`
degenerates to `time_diff <= TIME_TOLERANCE` there. -/
def scanClosestQ (time1 : ℚ) (traj2 : List Pt) : Option (Pt × ℚ) :=
  traj2.foldl
    (fun acc point2 =>
      let time_diff := |time1 - point2.timestamp|
      match acc with
      | none =>
          if time_diff ≤ TIME_TOLERANCE then some (point2, time_diff) else acc
      | some (q, min_diff) =>
          if time_diff < min_diff ∧ time_diff ≤ TIME_TOLERANCE then
            some (point2, time_diff)
          else some (q, min_diff))
    none

/-- `align_trajectories_by_time(self, traj1, traj2)` restricted to
trajectories whose timestamps are all `datetime` objects (the case in every
call from `check_trajectory_conflicts` on generated/store-loaded
trajectories): the `isinstance(time, str)` parse branches are vacuous.
The raw version with string parsing is `align_raw` below. -/
def align_trajectories_by_time (traj1 traj2 : List Pt) : List (Pt × Pt) :=
  if traj1.isEmpty || traj2.isEmpty then []
  else
    traj1.filterMap fun point1 =>
      match scanClosestQ point1.timestamp traj2 with
      | some (p2, min_diff) =>
          -- `if closest_point and min_diff <= self.TIME_TOLERANCE` (py:198)
          if min_diff ≤ TIME_TOLERANCE then some (point1, p2) else none
      | none => none

/-- One step of the scan when timestamps may be unparseable strings: an
unparseable `point2` is skipped (`continue`, py:190). -/
def scanStepRaw (time1 : ℚ) (acc : Option (RawPt × ℚ)) (point2 : RawPt) :
    Option (RawPt × ℚ) :=
  match parseTS point2.timestamp with
  | none => acc
  | some time2 =>
      let time_diff := |time1 - time2|
      match acc with
      | none =>
          if time_diff ≤ TIME_TOLERANCE then some (point2, time_diff)
          else acc
      | some (q, min_diff) =>
          if time_diff < min_diff ∧ time_diff ≤ TIME_TOLERANCE then
            some (point2, time_diff)
          else some (q, min_diff)

/-- The scan over `traj2` in the raw (string-tolerant) aligner. -/
def scanClosestRaw (time1 : ℚ) (traj2 : List RawPt) : Option (RawPt × ℚ) :=
  traj2.foldl (scanStepRaw time1) none

/-- `align_trajectories_by_time` in full: a `point1` whose timestamp no
recognized format parses is skipped (`continue`, py:175). -/
def align_raw (traj1 traj2 : List RawPt) : List (RawPt × RawPt) :=
  if traj1.isEmpty || traj2.isEmpty then []
  else
    traj1.filterMap fun point1 =>
      match parseTS point1.timestamp with
      | none => none
      | some time1 =>
          match scanClosestRaw time1 traj2 with
          | some (p2, min_diff) =>
              if min_diff ≤ TIME_TOLERANCE then some (point1, p2) else none
          | none => none

/-! ## check_trajectory_conflicts (deconfliction_engine.py:203-254) -/

/-- A conflict record (py:238-247).  The source stores the float Euclidean
distance; its square is recorded instead so the value stays rational. -/
structure Conflict where
  time : ℚ
  drone1_id : ℕ
  drone2_id : ℕ
  position : Vec3
  sq_distance : ℚ
  safety_buffer : ℚ
  timestamp1 : ℚ
  timestamp2 : ℚ
deriving DecidableEq, Repr

/-- `distance < safety_buffer` for `distance = √sq` with `sq ≥ 0`,
expressed on squares: equivalent to `0 < b ∧ sq < b²`. -/
def sqDistLtBuffer (sq b : ℚ) : Bool :=
  decide (0 < b) && decide (sq < b ^ 2)

/-- `check_trajectory_conflicts(self, new_trajectory, existing_trajectories)`.
`existing_trajectories` is a dict iterated in insertion order, embedded as
an association list.  The `log_conflict` call (py:251) only appends to the
conflicts log table and is not modelled. -/
def check_trajectory_conflicts (eng : DeconflictionEngine)
    (new_trajectory : List Pt) (existing : List (ℕ × List Pt)) :
    List Conflict :=
  if new_trajectory.isEmpty then []
  else
    let new_drone_id := match new_trajectory.head? with
      | some p => p.drone_id
      | none => 0
    existing.flatMap fun kv =>
      if kv.2.isEmpty then []
      else
        (align_trajectories_by_time new_trajectory kv.2).filterMap fun pr =>
          let sq := sqNorm (vsub pr.1.position pr.2.position)
          if sqDistLtBuffer sq eng.safety_buffer then
            some { time := min pr.1.timestamp pr.2.timestamp
                   drone1_id := new_drone_id
                   drone2_id := kv.1
                   position := pr.1.position
                   sq_distance := sq
                   safety_buffer := eng.safety_buffer
                   timestamp1 := pr.1.timestamp
                   timestamp2 := pr.2.timestamp }
          else none

/-! ## generate_suggestions (deconfliction_engine.py:327-392) -/

/-- One alternative proposal.  Numeric content that the source only embeds
in the human-readable `description`/`action` strings (the 10 m altitude
increase, the centroid waypoint — displayed rounded to one decimal — and
the compressed end time) is carried as fields. -/
inductive Suggestion
  | time_shift (delay new_start_time new_end_time : ℚ) (priority : ℕ)
  | altitude_adjustment (increase : ℚ) (priority : ℕ)
  | path_deviation (insert_waypoint : Vec3) (priority : ℕ)
  | speed_adjustment (speed_increase_percent : ℕ) (new_end_time : ℚ)
      (priority : ℕ)
deriving DecidableEq, Repr

/-- Priority of a suggestion, the key of the final `sort` (py:390). -/
def Suggestion.priority : Suggestion → ℕ
  | .time_shift _ _ _ p => p
  | .altitude_adjustment _ p => p
  | .path_deviation _ p => p
  | .speed_adjustment _ _ p => p

/-- Componentwise mean of a nonempty list of positions:
`np.mean(conflict_positions, axis=0)` (py:367). -/
def meanPos (ps : List Vec3) : Vec3 :=
  smul (1 / (ps.length : ℚ))
    (ps.foldl vadd ((0 : ℚ), (0 : ℚ), (0 : ℚ)))

/-- `generate_suggestions(self, conflicts, waypoints, start_time, end_time)`
(py:327-392).  `datetime.fromisoformat(c['time'])` recovers exactly the
rational stored in the conflict's `time` field. -/
def generate_suggestions (conflicts : List Conflict)
    (waypoints : List Vec3) (start_time end_time : ℚ) : List Suggestion :=
  match conflicts with
  | [] => []
  | c :: cs =>
      let first_conflict := (cs.map Conflict.time).foldl min c.time
      let last_conflict := (cs.map Conflict.time).foldl max c.time
      let mission_duration := end_time - start_time
      let conflict_duration := last_conflict - first_conflict
      let delay_needed := conflict_duration + 5
      let s1 : List Suggestion :=
        if 0 < delay_needed then
          [.time_shift delay_needed (start_time + delay_needed)
            (end_time + delay_needed) 1]
        else []
      let s2 : List Suggestion := [.altitude_adjustment 10 2]
      let s3 : List Suggestion :=
        if 1 < waypoints.length then
          [.path_deviation (meanPos ((c :: cs).map Conflict.position)) 3]
        else []
      let s4 : List Suggestion :=
        if 10 < mission_duration then
          [.speed_adjustment 20 (start_time + mission_duration / (6/5)) 4]
        else []
      List.insertionSort (fun a b => a.priority ≤ b.priority)
        (s1 ++ s2 ++ s3 ++ s4)

/-! ## The database (src/database.py)

A table is a list of rows in rowid (insertion) order.  Only the tables the
claims touch are modelled: `future_trajectory` and the
`(current_x, current_y, current_z)` columns of `drones`. -/

/-- One row of the `future_trajectory` table (database.py:111-127).
`timestamp` is stored via `strftime('%Y-%m-%d %H:%M:%S')`
(database.py:271), i.e. truncated to a whole second, so the field always
holds an integer value. -/
structure FutRow where
  drone_id : ℕ
  timestamp : ℚ
  pos : Vec3
  segment : ℕ
  waypoint_index : Option ℕ
  is_waypoint : Bool
  mission_id : Option ℕ
deriving DecidableEq, Repr

/-- Database state: the `future_trajectory` table and the current position
column of the `drones` table (as an association list keyed by drone_id). -/
structure DB where
  future : List FutRow
  drones : List (ℕ × Vec3)
deriving DecidableEq, Repr

def dbEmpty : DB := { future := [], drones := [] }

/-- First-match association-list lookup (dict access). -/
def mapLookup {α : Type} (d : ℕ) : List (ℕ × α) → Option α
  | [] => none
  | kv :: rest => if kv.1 = d then some kv.2 else mapLookup d rest

/-- `get_drone_current_position(drone_id)` (database.py:230-241): returns
the stored `[current_x, current_y, current_z]`, or `[0, 0, 10]` when the
drone has no row. -/
def get_drone_current_position (db : DB) (drone_id : ℕ) : Vec3 :=
  match mapLookup drone_id db.drones with
  | some p => p
  | none => (0, 0, 10)

/-- The INSERT of one trajectory point as a `future_trajectory` row
(database.py:267-289): keyed by the *point's* `drone_id` field, with the
timestamp truncated to whole seconds by `strftime('%Y-%m-%d %H:%M:%S')`. -/
def ptToRow (mission_id : Option ℕ) (p : Pt) : FutRow :=
  { drone_id := p.drone_id
    timestamp := (⌊p.timestamp⌋ : ℤ)
    pos := p.position
    segment := p.segment
    waypoint_index := p.waypoint_index
    is_waypoint := p.is_waypoint
    mission_id := mission_id }

/-- `store_future_trajectory(drone_id, trajectory, mission_id=None)`
(database.py:255-291): delete every row of this `drone_id`, then insert one
row per point. -/
def store_future_trajectory (db : DB) (drone_id : ℕ)
    (trajectory : List Pt) (mission_id : Option ℕ) : DB :=
  { db with future :=
      db.future.filter (fun r => decide (r.drone_id ≠ drone_id))
        ++ trajectory.map (ptToRow mission_id) }

/-- Row → returned trajectory dict (database.py:329-336); the stored
`'%Y-%m-%d %H:%M:%S'` string parses back to the same whole-second time. -/
def rowToPt (r : FutRow) : Pt :=
  { drone_id := r.drone_id, timestamp := r.timestamp, position := r.pos,
    segment := r.segment, waypoint_index := r.waypoint_index,
    is_waypoint := r.is_waypoint }

/-- `get_future_trajectories(start_time, end_time)` (database.py:292-338):
the window bounds are also `strftime`-truncated to whole seconds;
`timestamp BETWEEN ? AND ?` is inclusive on both ends (lexicographic
comparison of the fixed-width strings = numeric comparison);
`ORDER BY drone_id, timestamp` then grouping into a dict keyed by
`drone_id` — embedded as: ascending distinct drone ids, each mapped to its
window rows stably sorted by timestamp. -/
def get_future_trajectories (db : DB) (start_time end_time : ℚ) :
    List (ℕ × List Pt) :=
  let s : ℚ := (⌊start_time⌋ : ℤ)
  let e : ℚ := (⌊end_time⌋ : ℤ)
  let rows := db.future.filter fun r =>
    decide (s ≤ r.timestamp) && decide (r.timestamp ≤ e)
  let ids := List.insertionSort (· ≤ ·) (rows.map (fun r => r.drone_id)).dedup
  ids.map fun d =>
    (d, (List.insertionSort (fun a b => a.timestamp ≤ b.timestamp)
          (rows.filter fun r => decide (r.drone_id = d))).map rowToPt)

/-! ## check_mission_conflict (deconfliction_engine.py:256-325) -/

/-- The result dict of `check_mission_conflict`, keeping the fields the
claims are about: `genFailed` is the
`{'safe': False, 'error': 'Failed to generate trajectory', ...}` dict
(py:276-281), `rejected` the `'safe': False` conflict dict (py:299-309),
`accepted` the `'safe': True` dict (py:314-323) with its
`trajectory_points` count. -/
inductive MissionResult
  | genFailed
  | rejected (conflicts : List Conflict) (suggestions : List Suggestion)
  | accepted (trajectory_points : ℕ)
deriving DecidableEq, Repr

/-- `check_mission_conflict(self, new_drone_id, waypoints, start_time,
end_time)` (py:256-325).  The database is threaded explicitly: the pair is
(database state after the call, result).  The Python guard
`if not current_pos` after `get_drone_current_position` can never fire
(that function always returns a non-empty list), so it is a no-op here. -/
def check_mission_conflict (eng : DeconflictionEngine) (nrm : Vec3 → ℚ)
    (db : DB) (new_drone_id : ℕ) (waypoints : List Vec3)
    (start_time end_time : ℚ) : DB × MissionResult :=
  let current_pos := get_drone_current_position db new_drone_id
  let new_trajectory := generate_4d_trajectory eng nrm new_drone_id
    current_pos waypoints start_time end_time
  if new_trajectory.isEmpty then (db, .genFailed)
  else
    -- query the window, then drop this drone's own entry (py:284-288)
    let existing := (get_future_trajectories db start_time end_time).filter
      fun kv => decide (kv.1 ≠ new_drone_id)
    let conflicts := check_trajectory_conflicts eng new_trajectory existing
    if conflicts.isEmpty then
      (store_future_trajectory db new_drone_id new_trajectory none,
       .accepted new_trajectory.length)
    else
      (db, .rejected conflicts
        (generate_suggestions conflicts waypoints start_time end_time))

/-- The spec's store invariant, as a checkable predicate: some pair of
committed samples of distinct drones is within `TIME_TOLERANCE` in time
and strictly closer than `safety_buffer` in space.  (This definition
follows the spec's words; it is the property being checked, not code.) -/
def storeHasConflict (eng : DeconflictionEngine) (db : DB) : Bool :=
  db.future.any fun r1 => db.future.any fun r2 =>
    decide (r1.drone_id ≠ r2.drone_id) &&
    decide (|r1.timestamp - r2.timestamp| ≤ TIME_TOLERANCE) &&
    sqDistLtBuffer (sqNorm (vsub r1.pos r2.pos)) eng.safety_buffer


/-! ## Concrete scenario inputs used by the closed theorems -/

/-- An engine with 1 s interpolation resolution (any constructor argument
is a legal instance; `safety_buffer` keeps its default 5.0). -/
def engRes1 : DeconflictionEngine := { time_resolution := 1 }

/-- Mission 1 of the store-invariant scenario: drone 2, stationary at the
default origin `[0,0,10]`, window `[10, 20]`. -/
def missionA : DB × MissionResult :=
  check_mission_conflict engD nrmL1 dbEmpty 2 [(0, 0, 10)] 10 20

/-- Mission 2: drone 1, stationary at the same default origin, window
`[10.9, 20.9]` — 0.9 s after drone 2's committed sample, outside the 0.5 s
alignment tolerance, so the check sees no conflict. -/
def missionB : DB × MissionResult :=
  check_mission_conflict engD nrmL1 missionA.1 1 [(0, 0, 10)]
    (109/10) (209/10)

/-- Single sample of drone 1 at t = 0. -/
def ptA5 : Pt := ⟨1, 0, (0, 0, 0), 0, none, false⟩

/-- Drone 2's sample at t = 0.3, same position as drone 1's. -/
def ptB51 : Pt := ⟨2, 3/10, (0, 0, 0), 0, none, false⟩

/-- Drone 2's sample at t = 0.4, same position as drone 1's. -/
def ptB52 : Pt := ⟨2, 2/5, (0, 0, 0), 0, none, false⟩

/-- A one-sample trajectory with the sub-second timestamp t = 10.5. -/
def trajC6 : List Pt := [⟨3, 21/2, (1, 2, 3), 0, none, false⟩]

/-- A trajectory whose single point carries drone_id 2. -/
def trajC7 : List Pt := [⟨2, 0, (0, 0, 0), 0, none, false⟩]

/-- A conflict at time 0, position origin. -/
def confC8 : Conflict := ⟨0, 1, 2, (0, 0, 0), 0, 5, 0, 0⟩

/-- Boundary pair for the alignment/distance checks: drone 1 at t = 0 and
the origin; drone 2 exactly 0.5 s and exactly 5 m (a 3-4-5 triangle)
away. -/
def ptC3a : Pt := ⟨1, 0, (0, 0, 0), 0, none, false⟩

/-- See `ptC3a`. -/
def ptC3b : Pt := ⟨2, 1/2, (3, 4, 0), 0, none, false⟩

/-! ## Helper lemmas -/

theorem vadd_smul_zero (p q : Vec3) : vadd p (smul 0 (vsub q p)) = p := by
  simp [vadd, smul, vsub]

theorem sqNorm_vsub_comm (p q : Vec3) : sqNorm (vsub p q) = sqNorm (vsub q p) := by
  simp only [sqNorm, vsub]
  ring

theorem stepsFor_pos (eng : DeconflictionEngine) (st : ℚ) :
    0 < stepsFor eng st := by
  simp [stepsFor]

/-! ## C1 -/

/-- C1: the committed-trajectory store does NOT stay conflict-free across
`check_mission_conflict` calls.  Both stationary missions above are
accepted (drone 1's sample at t = 10.9 is 0.9 s away from drone 2's, so
no aligned pair forms), but `store_future_trajectory` truncates timestamps
to whole seconds via `strftime('%Y-%m-%d %H:%M:%S')`, leaving the store
with samples of drones 2 and 1 both at t = 10 at the same position —
time difference 0 ≤ 0.5 and distance 0 < safety_buffer.  The
commit-only-when-empty / store-unchanged-on-conflict parts of the claim do
hold; the invariant itself is violated, so the code contradicts the
system's central stated guarantee. -/
theorem decon_C1_store_conflict :
    missionA.2 = .accepted 1 ∧ missionB.2 = .accepted 1 ∧
    storeHasConflict engD missionB.1 = true := by
  have hf1 : ⌊(10 : ℚ)⌋ = 10 := by norm_num
  have hf2 : ⌊(20 : ℚ)⌋ = 20 := by norm_num
  have hf3 : ⌊(109/10 : ℚ)⌋ = 10 := by norm_num [Int.floor_eq_iff]
  have hf4 : ⌊(209/10 : ℚ)⌋ = 20 := by norm_num [Int.floor_eq_iff]
  norm_num [missionA, missionB, check_mission_conflict, dbEmpty, engD,
    get_drone_current_position, mapLookup, generate_4d_trajectory, nrmL1,
    vsub, segsOf, get_future_trajectories, store_future_trajectory, ptToRow,
    check_trajectory_conflicts, align_trajectories_by_time, scanClosestQ,
    sqDistLtBuffer, sqNorm, storeHasConflict, rowToPt, TIME_TOLERANCE,
    hf1, hf2, hf3, hf4, List.insertionSort, List.orderedInsert,
    List.filter_cons, List.filterMap_cons, List.cons_ne_nil,
    abs_of_nonneg, abs_of_nonpos, min_def]

/-! ## C2 -/

/-- C2 counterexample: (a) with two waypoints `[0,0,10]`, `[0,0,20]` from
origin `[0,0,0]` over window `[0, 2]` (axis-aligned, so the L1 norm equals
the Euclidean norm on every segment), the generated timestamp sequence is
`[0, 1, 1, 2]` — each segment re-emits its start instant, so the sequence
is not strictly monotone; (b) a mission whose waypoint equals the origin
(total distance 0) returns a single sample at `start_time`, so the last
timestamp is 0, not `end_time = 7`. -/
theorem decon_C2_cex :
    ¬ List.Chain' (· < ·)
      ((generate_4d_trajectory engRes1 nrmL1 1 (0, 0, 0)
        [(0, 0, 10), (0, 0, 20)] 0 2).map Pt.timestamp) ∧
    ((generate_4d_trajectory engD nrmL1 1 (5, 5, 5) [(5, 5, 5)] 0 7).map
      Pt.timestamp).getLast? = some 0 ∧ (0 : ℚ) ≠ 7 := by
  norm_num [generate_4d_trajectory, engRes1, nrmL1, vsub, vadd, smul,
    segsOf, buildTraj, segPoints, stepsFor, pyInt, List.range_succ,
    List.cons_ne_nil]

/-! ## C4 -/

/-- C4 counterexample: the generator does not fail with distinguished
`InvalidWindow` / `EmptyWaypoints` errors — an inverted window (end 3 <
start 5, with a waypoint) and an empty waypoint list both return the very
same value, the empty list, so the two failure modes are
indistinguishable to the caller. -/
theorem decon_C4_cex :
    generate_4d_trajectory engD nrmL1 1 (0, 0, 0) [(1, 1, 1)] 5 3 = [] ∧
    generate_4d_trajectory engD nrmL1 1 (0, 0, 0) [] 3 5 = [] ∧
    generate_4d_trajectory engD nrmL1 1 (0, 0, 0) [(1, 1, 1)] 5 3 =
      generate_4d_trajectory engD nrmL1 1 (0, 0, 0) [] 3 5 := by
  norm_num [generate_4d_trajectory]

/-- C4 (amended): whenever the waypoint list is empty or
`end_time ≤ start_time`, `generate_4d_trajectory` produces no samples —
it returns the empty list (rather than raising a distinguished
`EmptyWaypoints` / `InvalidWindow` error). -/
theorem decon_C4_amended (eng : DeconflictionEngine) (nrm : Vec3 → ℚ)
    (did : ℕ) (pos : Vec3) (wps : List Vec3) (s e : ℚ)
    (h : wps = [] ∨ e ≤ s) :
    generate_4d_trajectory eng nrm did pos wps s e = [] := by
  rcases h with h | h
  · simp [generate_4d_trajectory, h]
  · have hd : e - s ≤ 0 := sub_nonpos.mpr h
    simp [generate_4d_trajectory, hd]

/-- Witness for `decon_C4_amended` at a concrete input. -/
theorem decon_C4_amended_witness :
    (([] : List Vec3) = [] ∨ (5 : ℚ) ≤ 3) ∧
    generate_4d_trajectory engD nrmL1 7 (0, 0, 0) [] 3 5 = [] :=
  ⟨Or.inl rfl, decon_C4_amended engD nrmL1 7 (0, 0, 0) [] 3 5 (Or.inl rfl)⟩

/-! ## C3 -/

/-- Any conflict ever emitted by the detector has squared distance
strictly below `safety_buffer²`. -/
theorem mem_check_sq_lt (eng : DeconflictionEngine) (traj : List Pt)
    (others : List (ℕ × List Pt)) (c : Conflict)
    (hc : c ∈ check_trajectory_conflicts eng traj others) :
    c.sq_distance < eng.safety_buffer ^ 2 := by
  unfold check_trajectory_conflicts at hc
  by_cases h1 : traj.isEmpty
  · simp [h1] at hc
  · simp only [h1, Bool.false_eq_true, if_false, List.mem_flatMap] at hc
    obtain ⟨kv, hkv, hcin⟩ := hc
    by_cases h2 : kv.2.isEmpty
    · simp [h2] at hcin
    · simp only [h2, Bool.false_eq_true, if_false, List.mem_filterMap]
        at hcin
      obtain ⟨pr, hpr, hg⟩ := hcin
      by_cases h3 : sqDistLtBuffer
          (sqNorm (vsub pr.1.position pr.2.position)) eng.safety_buffer
      · simp only [h3, if_true, Option.some.injEq] at hg
        have h4 := h3
        simp only [sqDistLtBuffer, Bool.and_eq_true, decide_eq_true_eq]
          at h4
        rw [← hg]
        exact h4.2
      · simp [h3] at hg

/-- C3: boundary behavior of alignment and the distance comparison.
A pair of samples exactly `TIME_TOLERANCE` apart in time is a valid
aligned pair (the code uses `time_diff <= TIME_TOLERANCE`); a pair at
squared distance exactly `safety_buffer²` is not reported (the code uses
the strict `distance < safety_buffer`); and every conflict the detector
ever emits has squared distance strictly below `safety_buffer²`. -/
theorem decon_C3_boundaries (eng : DeconflictionEngine) (a b : Pt)
    (d2 : ℕ) (h : |a.timestamp - b.timestamp| = TIME_TOLERANCE) :
    align_trajectories_by_time [a] [b] = [(a, b)] ∧
    (sqNorm (vsub a.position b.position) = eng.safety_buffer ^ 2 →
      check_trajectory_conflicts eng [a] [(d2, [b])] = []) ∧
    ∀ (traj : List Pt) (others : List (ℕ × List Pt)) (c : Conflict),
      c ∈ check_trajectory_conflicts eng traj others →
      c.sq_distance < eng.safety_buffer ^ 2 := by
  refine ⟨?_, ?_, fun traj others c hc => mem_check_sq_lt eng traj others c hc⟩
  · simp [align_trajectories_by_time, scanClosestQ, h]
  · intro heq
    simp [check_trajectory_conflicts, align_trajectories_by_time,
      scanClosestQ, h, sqDistLtBuffer, heq]

/-- Witness for `decon_C3_boundaries`: drone 2's sample is exactly 0.5 s
and exactly 5 m (3-4-5 triangle) from drone 1's, with the default 5 m
buffer. -/
theorem decon_C3_boundaries_witness :
    |ptC3a.timestamp - ptC3b.timestamp| = TIME_TOLERANCE ∧
    sqNorm (vsub ptC3a.position ptC3b.position) = engD.safety_buffer ^ 2 ∧
    align_trajectories_by_time [ptC3a] [ptC3b] = [(ptC3a, ptC3b)] ∧
    check_trajectory_conflicts engD [ptC3a] [(2, [ptC3b])] = [] := by
  have h : |ptC3a.timestamp - ptC3b.timestamp| = TIME_TOLERANCE := by
    norm_num [ptC3a, ptC3b, TIME_TOLERANCE]
  have heq : sqNorm (vsub ptC3a.position ptC3b.position) =
      engD.safety_buffer ^ 2 := by
    norm_num [ptC3a, ptC3b, sqNorm, vsub, engD]
  exact ⟨h, heq, (decon_C3_boundaries engD ptC3a ptC3b 2 h).1,
    (decon_C3_boundaries engD ptC3a ptC3b 2 h).2.1 heq⟩

/-! ## C5 -/

/-- C5 counterexample: the conflict check is not symmetric.  Checking
drone 1's single sample against drone 2's two samples aligns the candidate
sample only with its single nearest partner (t = 0.3), producing one
conflict; checking drone 2's trajectory against drone 1's aligns each of
the two candidate samples with t = 0, producing two conflicts.  The two
conflict sets differ in cardinality, so no role swap identifies them. -/
theorem decon_C5_cex :
    (check_trajectory_conflicts engD [ptA5] [(2, [ptB51, ptB52])]).length
      = 1 ∧
    (check_trajectory_conflicts engD [ptB51, ptB52] [(1, [ptA5])]).length
      = 2 := by
  norm_num [check_trajectory_conflicts, align_trajectories_by_time,
    scanClosestQ, sqDistLtBuffer, sqNorm, vsub, TIME_TOLERANCE, engD,
    ptA5, ptB51, ptB52, List.filterMap_cons, List.cons_ne_nil,
    abs_of_nonneg, abs_of_nonpos, min_def]

/-- C5 (amended): symmetry does hold for single-sample trajectories keyed
by their own drone ids.  `check([a], {b})` and `check([b], {a})` are
governed by one symmetric condition (the samples within 0.5 s of each
other and strictly closer than the buffer), and the two emitted conflicts
are each other's role swap: drone ids, recorded position and the two
timestamps swap, while the conflict time (the earlier timestamp), squared
distance and buffer agree. -/
theorem decon_C5_amended (eng : DeconflictionEngine) (a b : Pt) :
    check_trajectory_conflicts eng [a] [(b.drone_id, [b])] =
      (if |a.timestamp - b.timestamp| ≤ TIME_TOLERANCE ∧
          sqDistLtBuffer (sqNorm (vsub a.position b.position))
            eng.safety_buffer = true then
        [{ time := min a.timestamp b.timestamp, drone1_id := a.drone_id,
           drone2_id := b.drone_id, position := a.position,
           sq_distance := sqNorm (vsub a.position b.position),
           safety_buffer := eng.safety_buffer,
           timestamp1 := a.timestamp, timestamp2 := b.timestamp }]
      else []) ∧
    check_trajectory_conflicts eng [b] [(a.drone_id, [a])] =
      (if |a.timestamp - b.timestamp| ≤ TIME_TOLERANCE ∧
          sqDistLtBuffer (sqNorm (vsub a.position b.position))
            eng.safety_buffer = true then
        [{ time := min a.timestamp b.timestamp, drone1_id := b.drone_id,
           drone2_id := a.drone_id, position := b.position,
           sq_distance := sqNorm (vsub a.position b.position),
           safety_buffer := eng.safety_buffer,
           timestamp1 := b.timestamp, timestamp2 := a.timestamp }]
      else []) := by
  have hsym : |b.timestamp - a.timestamp| = |a.timestamp - b.timestamp| :=
    abs_sub_comm _ _
  have hnsym : sqNorm (vsub b.position a.position) =
      sqNorm (vsub a.position b.position) := sqNorm_vsub_comm _ _
  by_cases hal : |a.timestamp - b.timestamp| ≤ TIME_TOLERANCE
  · by_cases hd : sqDistLtBuffer
        (sqNorm (vsub a.position b.position)) eng.safety_buffer = true
    · simp [check_trajectory_conflicts, align_trajectories_by_time,
        scanClosestQ, hal, hd, hsym, hnsym, min_comm a.timestamp]
    · simp [check_trajectory_conflicts, align_trajectories_by_time,
        scanClosestQ, hal, hd, hsym, hnsym]
  · simp [check_trajectory_conflicts, align_trajectories_by_time,
      scanClosestQ, hal, hsym, hnsym]

/-! ## C7 -/

/-- C7 counterexample: `store_future_trajectory` deletes by its `drone_id`
argument but inserts under each *point's* own `drone_id` field.  Storing a
trajectory whose point carries drone_id 2 under the argument drone_id 1
twice leaves two copies of the row (the second delete removes nothing), so
the double call does not equal the single call. -/
theorem decon_C7_cex :
    store_future_trajectory
        (store_future_trajectory dbEmpty 1 trajC7 none) 1 trajC7 none
      ≠ store_future_trajectory dbEmpty 1 trajC7 none := by
  norm_num [store_future_trajectory, ptToRow, dbEmpty, trajC7,
    List.filter_cons]

/-- C7 (amended): when every point of the trajectory carries the drone id
it is stored under — as is the case for every generator-produced
trajectory — the commit is idempotent, and it replaces all previously
committed samples for that drone: after the put, the rows stored under
`D` are exactly the rows of `T`. -/
theorem decon_C7_amended (db : DB) (D : ℕ) (T : List Pt) (m : Option ℕ)
    (h : ∀ p ∈ T, p.drone_id = D) :
    store_future_trajectory (store_future_trajectory db D T m) D T m =
      store_future_trajectory db D T m ∧
    (store_future_trajectory db D T m).future.filter
        (fun r => decide (r.drone_id = D)) = T.map (ptToRow m) := by
  have hrows : ∀ r ∈ T.map (ptToRow m), r.drone_id = D := by
    intro r hr
    obtain ⟨p, hp, rfl⟩ := List.mem_map.mp hr
    simpa [ptToRow] using h p hp
  constructor
  · have h1 : (T.map (ptToRow m)).filter
        (fun r => decide (r.drone_id ≠ D)) = [] :=
      List.filter_eq_nil_iff.mpr (by intro r hr; simp [hrows r hr])
    have h2 : ((db.future.filter (fun r => decide (r.drone_id ≠ D))).filter
          (fun r => decide (r.drone_id ≠ D))) =
        db.future.filter (fun r => decide (r.drone_id ≠ D)) := by
      simp [List.filter_filter]
    simp only [store_future_trajectory, List.filter_append, h1, h2,
      List.append_nil]
  · have h1 : ((db.future.filter (fun r => decide (r.drone_id ≠ D))).filter
          (fun r => decide (r.drone_id = D))) = [] := by
      refine List.filter_eq_nil_iff.mpr ?_
      intro r hr
      have hne := List.of_mem_filter hr
      simp only [decide_eq_true_eq] at hne
      simp [hne]
    have h2 : (T.map (ptToRow m)).filter
        (fun r => decide (r.drone_id = D)) = T.map (ptToRow m) :=
      List.filter_eq_self.mpr (by intro r hr; simp [hrows r hr])
    simp [store_future_trajectory, List.filter_append, h1, h2]

/-- Witness for `decon_C7_amended`: a one-point trajectory whose point
carries the drone id it is stored under. -/
theorem decon_C7_amended_witness :
    (∀ p ∈ ([⟨1, 0, (0, 0, 0), 0, none, false⟩] : List Pt),
      p.drone_id = 1) ∧
    store_future_trajectory
        (store_future_trajectory dbEmpty 1
          [⟨1, 0, (0, 0, 0), 0, none, false⟩] none) 1
        [⟨1, 0, (0, 0, 0), 0, none, false⟩] none =
      store_future_trajectory dbEmpty 1
        [⟨1, 0, (0, 0, 0), 0, none, false⟩] none :=
  ⟨by intro p hp; rw [List.mem_singleton] at hp; rw [hp],
   (decon_C7_amended dbEmpty 1 [⟨1, 0, (0, 0, 0), 0, none, false⟩] none
     (by intro p hp; rw [List.mem_singleton] at hp; rw [hp])).1⟩

/-! ## C8 -/

theorem foldl_min_le_foldl_max (l : List ℚ) (x y : ℚ) (h : x ≤ y) :
    l.foldl min x ≤ l.foldl max y := by
  induction l generalizing x y with
  | nil => exact h
  | cons a l ih =>
      exact ih _ _ (le_trans (min_le_left x a) (le_trans h (le_max_left y a)))

/-- C8 counterexample: the speedup suggestion does not compress the window
by 20%.  For a single conflict at t = 0, no waypoints and window
`[0, 12]`, the code emits `speed_adjustment` with new end time
`0 + 12 / 1.2 = 10` (a 20% *speed* increase, i.e. a 16.7% shorter window),
whereas compressing the window by 20% would give `0 + 0.8·12 = 9.6`. -/
theorem decon_C8_cex :
    generate_suggestions [confC8] [] 0 12 =
      [.time_shift 5 5 17 1, .altitude_adjustment 10 2,
       .speed_adjustment 20 10 4] ∧
    (10 : ℚ) ≠ 0 + (4/5) * (12 - 0) := by
  norm_num [generate_suggestions, confC8, meanPos, List.insertionSort,
    List.orderedInsert, Suggestion.priority]

/-- C8 (amended): for every non-empty conflict list the suggestions are,
in priority order: a time shift delaying by (latest − earliest conflict
time) + 5 s; a 10 m altitude increase; when the mission has at least two
waypoints, a path deviation through the centroid of the conflict
positions; and when the mission duration exceeds 10 s, a 20% *speed
increase*, i.e. a new end time of `start + duration / 1.2` (not a 20%
window compression). -/
theorem decon_C8_amended (c : Conflict) (cs : List Conflict)
    (wps : List Vec3) (s e : ℚ) :
    generate_suggestions (c :: cs) wps s e =
      [.time_shift
          ((cs.map Conflict.time).foldl max c.time -
            (cs.map Conflict.time).foldl min c.time + 5)
          (s + ((cs.map Conflict.time).foldl max c.time -
            (cs.map Conflict.time).foldl min c.time + 5))
          (e + ((cs.map Conflict.time).foldl max c.time -
            (cs.map Conflict.time).foldl min c.time + 5)) 1,
        .altitude_adjustment 10 2]
      ++ (if 1 < wps.length then
            [.path_deviation (meanPos ((c :: cs).map Conflict.position)) 3]
          else [])
      ++ (if 10 < e - s then
            [.speed_adjustment 20 (s + (e - s) / (6/5)) 4]
          else []) := by
  have hmm : (cs.map Conflict.time).foldl min c.time ≤
      (cs.map Conflict.time).foldl max c.time :=
    foldl_min_le_foldl_max _ _ _ le_rfl
  have hpos : 0 < (cs.map Conflict.time).foldl max c.time -
      (cs.map Conflict.time).foldl min c.time + 5 := by linarith
  by_cases h3 : 1 < wps.length <;> by_cases h4 : 10 < e - s <;>
    norm_num [generate_suggestions, hpos, h3, h4, List.insertionSort,
      List.orderedInsert, Suggestion.priority]

/-- Timestamps of one segment's samples, as a map over `range`. -/
theorem segPoints_map_ts (did segIdx : ℕ) (p1 p2 : Vec3) (st cur : ℚ)
    (steps : ℕ) :
    (segPoints did segIdx p1 p2 st cur steps).map Pt.timestamp =
      (List.range (steps + 1)).map fun (step : ℕ) =>
        cur + st * (if steps = 0 then 0 else (step : ℚ) / (steps : ℚ)) := by
  simp [segPoints, List.map_map]

theorem segPoints_ne_nil (did segIdx : ℕ) (p1 p2 : Vec3) (st cur : ℚ)
    (steps : ℕ) : segPoints did segIdx p1 p2 st cur steps ≠ [] := by
  simp only [segPoints, ne_eq, List.map_eq_nil_iff, List.range_eq_nil]
  omega

theorem segPoints_head_ts (did segIdx : ℕ) (p1 p2 : Vec3) (st cur : ℚ)
    (steps : ℕ) :
    ((segPoints did segIdx p1 p2 st cur steps).map Pt.timestamp).head? =
      some cur := by
  rw [segPoints_map_ts, List.range_succ_eq_map]
  simp

theorem segPoints_head_pos (did segIdx : ℕ) (p1 p2 : Vec3) (st cur : ℚ)
    (steps : ℕ) :
    ((segPoints did segIdx p1 p2 st cur steps).map Pt.position).head? =
      some p1 := by
  rw [segPoints, List.range_succ_eq_map]
  simp [vadd_smul_zero]

theorem segPoints_last_ts (did segIdx : ℕ) (p1 p2 : Vec3) (st cur : ℚ)
    (steps : ℕ) (h : steps ≠ 0) :
    ((segPoints did segIdx p1 p2 st cur steps).map Pt.timestamp).getLast? =
      some (cur + st) := by
  rw [segPoints_map_ts, List.range_succ, List.map_append]
  simp only [List.map_cons, List.map_nil, List.getLast?_concat]
  have hc : ((steps : ℚ)) ≠ 0 := Nat.cast_ne_zero.mpr h
  simp [h, div_self hc]

theorem segPoints_last_iswp (did segIdx : ℕ) (p1 p2 : Vec3) (st cur : ℚ)
    (steps : ℕ) :
    ((segPoints did segIdx p1 p2 st cur steps).getLast?).map Pt.is_waypoint
      = some true := by
  rw [segPoints, List.range_succ, List.map_append]
  simp only [List.map_cons, List.map_nil, List.getLast?_concat]
  simp

theorem segPoints_ts_chain (did segIdx : ℕ) (p1 p2 : Vec3) (st cur : ℚ)
    (steps : ℕ) (h : 0 ≤ st) :
    List.Chain' (· ≤ ·)
      ((segPoints did segIdx p1 p2 st cur steps).map Pt.timestamp) := by
  rw [segPoints_map_ts, List.chain'_map,
    show steps + 1 = Nat.succ steps from rfl, List.chain'_range_succ]
  intro m hm
  have hs : steps ≠ 0 := by omega
  have hsp : (0 : ℚ) < (steps : ℚ) := by
    exact_mod_cast Nat.pos_of_ne_zero hs
  simp only [hs, if_false]
  refine add_le_add_left (mul_le_mul_of_nonneg_left ?_ h) cur
  exact div_le_div_of_nonneg_right (by exact_mod_cast Nat.le_succ m) hsp.le

theorem buildTraj_ne_nil (eng : DeconflictionEngine) (did : ℕ)
    (segs : List ((Vec3 × Vec3) × ℚ)) (idx : ℕ) (cur : ℚ)
    (h : segs ≠ []) : buildTraj eng did segs idx cur ≠ [] := by
  match segs with
  | ((p1, p2), st) :: rest =>
      simp only [buildTraj, ne_eq, List.append_eq_nil]
      intro hc
      exact segPoints_ne_nil did idx p1 p2 st cur _ hc.1

theorem buildTraj_head_ts (eng : DeconflictionEngine) (did : ℕ)
    (x : (Vec3 × Vec3) × ℚ) (rest : List ((Vec3 × Vec3) × ℚ)) (idx : ℕ)
    (cur : ℚ) :
    ((buildTraj eng did (x :: rest) idx cur).map Pt.timestamp).head? =
      some cur := by
  obtain ⟨⟨p1, p2⟩, st⟩ := x
  rw [buildTraj, List.map_append,
    List.head?_append_of_ne_nil _ (by
      simp only [ne_eq, List.map_eq_nil_iff]
      exact segPoints_ne_nil did idx p1 p2 st cur _),
    segPoints_head_ts]

theorem buildTraj_head_pos (eng : DeconflictionEngine) (did : ℕ)
    (p1 p2 : Vec3) (st : ℚ) (rest : List ((Vec3 × Vec3) × ℚ)) (idx : ℕ)
    (cur : ℚ) :
    ((buildTraj eng did (((p1, p2), st) :: rest) idx cur).map
      Pt.position).head? = some p1 := by
  rw [buildTraj, List.map_append,
    List.head?_append_of_ne_nil _ (by
      simp only [ne_eq, List.map_eq_nil_iff]
      exact segPoints_ne_nil did idx p1 p2 st cur _),
    segPoints_head_pos]

theorem buildTraj_last_ts (eng : DeconflictionEngine) (did : ℕ)
    (segs : List ((Vec3 × Vec3) × ℚ)) (idx : ℕ) (cur : ℚ)
    (h : segs ≠ []) :
    ((buildTraj eng did segs idx cur).map Pt.timestamp).getLast? =
      some (cur + (segs.map (fun x => x.2)).sum) := by
  induction segs generalizing idx cur with
  | nil => exact absurd rfl h
  | cons x rest ih =>
      obtain ⟨⟨p1, p2⟩, st⟩ := x
      rw [buildTraj, List.map_append]
      cases rest with
      | nil =>
          simp only [buildTraj, List.map_nil, List.append_nil,
            List.map_cons, List.sum_cons, List.sum_nil, add_zero]
          exact segPoints_last_ts did idx p1 p2 st cur _
            (stepsFor_pos eng st).ne'
      | cons y rest' =>
          rw [List.getLast?_append_of_ne_nil _ (by
            simp only [ne_eq, List.map_eq_nil_iff]
            exact buildTraj_ne_nil eng did _ _ _ (List.cons_ne_nil y rest')),
            ih (idx + 1) (cur + st) (List.cons_ne_nil y rest')]
          simp only [List.map_cons, List.sum_cons, Option.some.injEq]
          ring

theorem buildTraj_last_iswp (eng : DeconflictionEngine) (did : ℕ)
    (segs : List ((Vec3 × Vec3) × ℚ)) (idx : ℕ) (cur : ℚ)
    (h : segs ≠ []) :
    ((buildTraj eng did segs idx cur).getLast?).map Pt.is_waypoint =
      some true := by
  induction segs generalizing idx cur with
  | nil => exact absurd rfl h
  | cons x rest ih =>
      obtain ⟨⟨p1, p2⟩, st⟩ := x
      rw [buildTraj]
      cases rest with
      | nil =>
          simp only [buildTraj, List.append_nil]
          exact segPoints_last_iswp did idx p1 p2 st cur _
      | cons y rest' =>
          rw [List.getLast?_append_of_ne_nil _
            (buildTraj_ne_nil eng did _ _ _ (List.cons_ne_nil y rest'))]
          exact ih (idx + 1) (cur + st) (List.cons_ne_nil y rest')

theorem buildTraj_ts_chain (eng : DeconflictionEngine) (did : ℕ)
    (segs : List ((Vec3 × Vec3) × ℚ)) (idx : ℕ) (cur : ℚ)
    (h : ∀ x ∈ segs, 0 ≤ x.2) :
    List.Chain' (· ≤ ·)
      ((buildTraj eng did segs idx cur).map Pt.timestamp) := by
  induction segs generalizing idx cur with
  | nil => simp [buildTraj]
  | cons x rest ih =>
      obtain ⟨⟨p1, p2⟩, st⟩ := x
      have hst : 0 ≤ st := h _ (List.mem_cons_self _ _)
      rw [buildTraj, List.map_append]
      refine List.Chain'.append
        (segPoints_ts_chain did idx p1 p2 st cur _ hst)
        (ih (idx + 1) (cur + st)
          (fun x hx => h x (List.mem_cons_of_mem _ hx))) ?_
      intro a ha b hb
      rw [segPoints_last_ts did idx p1 p2 st cur _
        (stepsFor_pos eng st).ne'] at ha
      cases rest with
      | nil => simp [buildTraj] at hb
      | cons y rest' =>
          rw [buildTraj_head_ts] at hb
          simp only [Option.mem_def, Option.some.injEq] at ha hb
          rw [← ha, ← hb]

theorem sum_map_div_mul (l : List ℚ) (d : ℚ) (h : l.sum ≠ 0) :
    (l.map fun x => x / l.sum * d).sum = d := by
  have hfun : (fun x => x / l.sum * d) = fun x => id x * (d / l.sum) := by
    funext x
    simp only [id]
    ring
  rw [hfun, List.sum_map_mul_right, List.map_id, mul_comm,
    div_mul_cancel₀ _ h]

theorem generate_eq_buildTraj (eng : DeconflictionEngine) (nrm : Vec3 → ℚ)
    (did : ℕ) (pos w : Vec3) (wps' : List Vec3) (s e : ℚ) (hd : 0 < e - s)
    (htot : ((segsOf (pos :: w :: wps')).map fun pq =>
      nrm (vsub pq.2 pq.1)).sum ≠ 0) :
    generate_4d_trajectory eng nrm did pos (w :: wps') s e =
      buildTraj eng did ((segsOf (pos :: w :: wps')).zip
        (((segsOf (pos :: w :: wps')).map fun pq =>
          nrm (vsub pq.2 pq.1)).map fun d =>
            d / ((segsOf (pos :: w :: wps')).map fun pq =>
              nrm (vsub pq.2 pq.1)).sum * (e - s))) 0 s := by
  obtain ⟨st0, rest, hsegs⟩ :
      ∃ st0 rest, ((segsOf (pos :: w :: wps')).zip
        (((segsOf (pos :: w :: wps')).map fun pq =>
          nrm (vsub pq.2 pq.1)).map fun d =>
            d / ((segsOf (pos :: w :: wps')).map fun pq =>
              nrm (vsub pq.2 pq.1)).sum * (e - s))) =
        ((pos, w), st0) :: rest := ⟨_, _, rfl⟩
  have hne : ((segsOf (pos :: w :: wps')).zip
      (((segsOf (pos :: w :: wps')).map fun pq =>
        nrm (vsub pq.2 pq.1)).map fun d =>
          d / ((segsOf (pos :: w :: wps')).map fun pq =>
            nrm (vsub pq.2 pq.1)).sum * (e - s))) ≠ [] := by
    rw [hsegs]
    exact List.cons_ne_nil _ _
  have hiswp := buildTraj_last_iswp eng did _ 0 s hne
  simp only [generate_4d_trajectory, if_neg (List.cons_ne_nil w wps'),
    if_neg (not_le.mpr hd), if_neg htot]
  cases hl : (buildTraj eng did ((segsOf (pos :: w :: wps')).zip
      (((segsOf (pos :: w :: wps')).map fun pq =>
        nrm (vsub pq.2 pq.1)).map fun d =>
          d / ((segsOf (pos :: w :: wps')).map fun pq =>
            nrm (vsub pq.2 pq.1)).sum * (e - s))) 0 s).getLast? with
  | none =>
      rw [hl] at hiswp
  | some lastPt =>
      rw [hl] at hiswp
      simp only [Option.map_some', Option.some.injEq] at hiswp
      simp [hiswp]

/-- C2 (amended): for any nonnegative norm function (the Euclidean norm is
one), a generated trajectory with a non-empty waypoint list and
`end_time > start_time` starts at `start_time` at the origin position, its
timestamps are non-decreasing, and — whenever the total inter-point
distance is nonzero — its last timestamp is exactly `end_time`.  (Strict
monotonicity fails, and in the zero-distance case the single sample sits
at `start_time`: see `decon_C2_cex`.) -/
theorem decon_C2_amended (eng : DeconflictionEngine) (nrm : Vec3 → ℚ)
    (hnn : ∀ v, 0 ≤ nrm v) (did : ℕ) (pos : Vec3) (wps : List Vec3)
    (s e : ℚ) (hw : wps ≠ []) (hd : 0 < e - s) :
    ((generate_4d_trajectory eng nrm did pos wps s e).map
      Pt.timestamp).head? = some s ∧
    ((generate_4d_trajectory eng nrm did pos wps s e).map
      Pt.position).head? = some pos ∧
    List.Chain' (· ≤ ·)
      ((generate_4d_trajectory eng nrm did pos wps s e).map Pt.timestamp) ∧
    (((segsOf (pos :: wps)).map fun pq => nrm (vsub pq.2 pq.1)).sum ≠ 0 →
      ((generate_4d_trajectory eng nrm did pos wps s e).map
        Pt.timestamp).getLast? = some e) := by
  obtain ⟨w, wps', rfl⟩ : ∃ w wps', wps = w :: wps' := by
    cases wps with
    | nil => exact absurd rfl hw
    | cons a l => exact ⟨a, l, rfl⟩
  by_cases htot : ((segsOf (pos :: w :: wps')).map fun pq =>
      nrm (vsub pq.2 pq.1)).sum = 0
  · have hgen : generate_4d_trajectory eng nrm did pos (w :: wps') s e =
        [⟨did, s, pos, 0, some 0, false⟩] := by
      simp only [generate_4d_trajectory, if_neg (List.cons_ne_nil w wps'),
        if_neg (not_le.mpr hd), if_pos htot]
    rw [hgen]
    exact ⟨rfl, rfl, by simp, fun hs => absurd htot hs⟩
  · rw [generate_eq_buildTraj eng nrm did pos w wps' s e hd htot]
    obtain ⟨st0, rest, hsegs⟩ :
        ∃ st0 rest, ((segsOf (pos :: w :: wps')).zip
          (((segsOf (pos :: w :: wps')).map fun pq =>
            nrm (vsub pq.2 pq.1)).map fun d =>
              d / ((segsOf (pos :: w :: wps')).map fun pq =>
                nrm (vsub pq.2 pq.1)).sum * (e - s))) =
          ((pos, w), st0) :: rest := ⟨_, _, rfl⟩
    have htot0 : 0 < ((segsOf (pos :: w :: wps')).map fun pq =>
        nrm (vsub pq.2 pq.1)).sum := by
      refine lt_of_le_of_ne (List.sum_nonneg ?_) (Ne.symm htot)
      intro y hy
      obtain ⟨pq, _, rfl⟩ := List.mem_map.mp hy
      exact hnn _
    have hnonneg : ∀ x ∈ ((segsOf (pos :: w :: wps')).zip
        (((segsOf (pos :: w :: wps')).map fun pq =>
          nrm (vsub pq.2 pq.1)).map fun d =>
            d / ((segsOf (pos :: w :: wps')).map fun pq =>
              nrm (vsub pq.2 pq.1)).sum * (e - s))), (0 : ℚ) ≤ x.2 := by
      intro x hx
      obtain ⟨hx1, hx2⟩ := List.of_mem_zip hx
      obtain ⟨d, hdm, hdx⟩ := List.mem_map.mp hx2
      obtain ⟨pq, _, rfl⟩ := List.mem_map.mp hdm
      rw [← hdx]
      exact mul_nonneg (div_nonneg (hnn _) htot0.le) hd.le
    refine ⟨?_, ?_, ?_, fun _ => ?_⟩
    · rw [hsegs]
      exact buildTraj_head_ts eng did _ rest 0 s
    · rw [hsegs]
      exact buildTraj_head_pos eng did pos w st0 rest 0 s
    · exact buildTraj_ts_chain eng did _ 0 s hnonneg
    · rw [buildTraj_last_ts eng did _ 0 s
        (by rw [hsegs]; exact List.cons_ne_nil _ _)]
      have hlen : (((segsOf (pos :: w :: wps')).map fun pq =>
          nrm (vsub pq.2 pq.1)).map fun d =>
            d / ((segsOf (pos :: w :: wps')).map fun pq =>
              nrm (vsub pq.2 pq.1)).sum * (e - s)).length ≤
          (segsOf (pos :: w :: wps')).length := by
        simp
      rw [List.map_snd_zip _ _ hlen, sum_map_div_mul _ _ htot]
      congr 1
      ring

/-- The L1 norm is nonnegative. -/
theorem nrmL1_nonneg : ∀ v : Vec3, 0 ≤ nrmL1 v := by
  intro v
  simp only [nrmL1]
  positivity

/-- Witness for `decon_C2_amended`: the default engine, the L1 norm, one
waypoint straight up from the origin over the window `[0, 5]`. -/
theorem decon_C2_amended_witness :
    (∀ v : Vec3, 0 ≤ nrmL1 v) ∧ (([(0, 0, 10)] : List Vec3) ≠ []) ∧
    ((0 : ℚ) < 5 - 0) ∧
    (((generate_4d_trajectory engD nrmL1 1 (0, 0, 0) [(0, 0, 10)] 0 5).map
        Pt.timestamp).head? = some 0 ∧
      ((generate_4d_trajectory engD nrmL1 1 (0, 0, 0) [(0, 0, 10)] 0 5).map
        Pt.position).head? = some (0, 0, 0) ∧
      List.Chain' (· ≤ ·)
        ((generate_4d_trajectory engD nrmL1 1 (0, 0, 0)
          [(0, 0, 10)] 0 5).map Pt.timestamp) ∧
      (((segsOf ((0, 0, 0) :: [(0, 0, 10)])).map fun pq =>
          nrmL1 (vsub pq.2 pq.1)).sum ≠ 0 →
        ((generate_4d_trajectory engD nrmL1 1 (0, 0, 0)
          [(0, 0, 10)] 0 5).map Pt.timestamp).getLast? = some 5)) :=
  ⟨nrmL1_nonneg, by simp, by norm_num,
   decon_C2_amended engD nrmL1 nrmL1_nonneg 1 (0, 0, 0) [(0, 0, 10)] 0 5
     (by simp) (by norm_num)⟩

/-! ## C9 -/

/-- A mission with at least one waypoint and a positive window always
yields a non-empty trajectory. -/
theorem generate_ne_nil (eng : DeconflictionEngine) (nrm : Vec3 → ℚ)
    (did : ℕ) (pos : Vec3) (wps : List Vec3) (s e : ℚ)
    (hw : wps ≠ []) (hd : 0 < e - s) :
    generate_4d_trajectory eng nrm did pos wps s e ≠ [] := by
  obtain ⟨w, wps', rfl⟩ : ∃ w wps', wps = w :: wps' := by
    cases wps with
    | nil => exact absurd rfl hw
    | cons a l => exact ⟨a, l, rfl⟩
  by_cases htot : ((segsOf (pos :: w :: wps')).map fun pq =>
      nrm (vsub pq.2 pq.1)).sum = 0
  · simp only [generate_4d_trajectory, if_neg (List.cons_ne_nil w wps'),
      if_neg (not_le.mpr hd), if_pos htot]
    exact List.cons_ne_nil _ _
  · rw [generate_eq_buildTraj eng nrm did pos w wps' s e hd htot]
    refine buildTraj_ne_nil eng did _ 0 s ?_
    obtain ⟨st0, rest, hsegs⟩ :
        ∃ st0 rest, ((segsOf (pos :: w :: wps')).zip
          (((segsOf (pos :: w :: wps')).map fun pq =>
            nrm (vsub pq.2 pq.1)).map fun d =>
              d / ((segsOf (pos :: w :: wps')).map fun pq =>
                nrm (vsub pq.2 pq.1)).sum * (e - s))) =
          ((pos, w), st0) :: rest := ⟨_, _, rfl⟩
    rw [hsegs]
    exact List.cons_ne_nil _ _

/-- C9: when the live-state source has no recorded position for the
submitting drone, `check_mission_conflict` does not reject the mission: it
behaves exactly (same result, same resulting trajectory store) as if the
drone's current position were the fixed default `[0, 0, 10]`, and with a
non-empty waypoint list and a positive window the result is never the
trajectory-generation failure. -/
theorem decon_C9_default_origin (eng : DeconflictionEngine)
    (nrm : Vec3 → ℚ) (db : DB) (did : ℕ) (wps : List Vec3) (s e : ℚ)
    (h : mapLookup did db.drones = none) (hw : wps ≠ []) (hd : s < e) :
    (check_mission_conflict eng nrm db did wps s e).2 =
      (check_mission_conflict eng nrm
        { future := db.future,
          drones := (did, ((0 : ℚ), (0 : ℚ), (10 : ℚ))) :: db.drones }
        did wps s e).2 ∧
    (check_mission_conflict eng nrm db did wps s e).1.future =
      (check_mission_conflict eng nrm
        { future := db.future,
          drones := (did, ((0 : ℚ), (0 : ℚ), (10 : ℚ))) :: db.drones }
        did wps s e).1.future ∧
    (check_mission_conflict eng nrm db did wps s e).2 ≠ .genFailed := by
  have hpos : get_drone_current_position db did = (0, 0, 10) := by
    simp [get_drone_current_position, h]
  have hpos' : get_drone_current_position
      { future := db.future,
        drones := (did, ((0 : ℚ), (0 : ℚ), (10 : ℚ))) :: db.drones }
      did = (0, 0, 10) := by
    simp [get_drone_current_position, mapLookup]
  have hquery : ∀ s' e', get_future_trajectories
      { future := db.future,
        drones := (did, ((0 : ℚ), (0 : ℚ), (10 : ℚ))) :: db.drones } s' e' =
      get_future_trajectories db s' e' := fun _ _ => rfl
  have hgen : generate_4d_trajectory eng nrm did (0, 0, 10) wps s e ≠ [] :=
    generate_ne_nil eng nrm did (0, 0, 10) wps s e hw (sub_pos.mpr hd)
  have hgen' : (generate_4d_trajectory eng nrm did
      (0, 0, 10) wps s e).isEmpty = false := by
    simpa using hgen
  simp only [check_mission_conflict, hpos, hpos', hquery, hgen',
    Bool.false_eq_true, if_false]
  by_cases hc : check_trajectory_conflicts eng
      (generate_4d_trajectory eng nrm did (0, 0, 10) wps s e)
      (List.filter (fun kv => !decide (kv.1 = did))
        (get_future_trajectories db s e)) = []
  · simp [hc, store_future_trajectory]
  · simp [hc]

/-- Witness for `decon_C9_default_origin`: empty database (so drone 7 has
no recorded position), one waypoint, window `[0, 1]`. -/
theorem decon_C9_default_origin_witness :
    mapLookup 7 dbEmpty.drones = none ∧
    (([((1 : ℚ), (1 : ℚ), (1 : ℚ))] : List Vec3) ≠ []) ∧ ((0 : ℚ) < 1) ∧
    ((check_mission_conflict engD nrmL1 dbEmpty 7 [(1, 1, 1)] 0 1).2 =
        (check_mission_conflict engD nrmL1
          { future := dbEmpty.future,
            drones := (7, ((0 : ℚ), (0 : ℚ), (10 : ℚ))) :: dbEmpty.drones }
          7 [(1, 1, 1)] 0 1).2 ∧
      (check_mission_conflict engD nrmL1 dbEmpty 7
          [(1, 1, 1)] 0 1).1.future =
        (check_mission_conflict engD nrmL1
          { future := dbEmpty.future,
            drones := (7, ((0 : ℚ), (0 : ℚ), (10 : ℚ))) :: dbEmpty.drones }
          7 [(1, 1, 1)] 0 1).1.future ∧
      (check_mission_conflict engD nrmL1 dbEmpty 7 [(1, 1, 1)] 0 1).2 ≠
        .genFailed) :=
  ⟨rfl, by simp, by norm_num,
   decon_C9_default_origin engD nrmL1 dbEmpty 7 [(1, 1, 1)] 0 1 rfl
     (by simp) (by norm_num)⟩

/-! ## C10 -/

/-- A fold whose step ignores elements outside `good` equals the fold over
the `good`-filtered list. -/
theorem foldl_filter_skip {α β : Type} (f : β → α → β) (good : α → Bool)
    (hskip : ∀ b a, good a = false → f b a = b) :
    ∀ (l : List α) (b : β), l.foldl f b = (l.filter good).foldl f b := by
  intro l
  induction l with
  | nil => intro b; rfl
  | cons x xs ih =>
      intro b
      cases hx : good x with
      | false =>
          simp only [List.foldl_cons, List.filter_cons, hx,
            Bool.false_eq_true, if_false, hskip b x hx]
          exact ih b
      | true =>
          simp only [List.foldl_cons, List.filter_cons, hx, if_true]
          exact ih (f b x)

/-- An unparseable candidate sample leaves the scan state unchanged. -/
theorem scanStepRaw_bad (time1 : ℚ) (acc : Option (RawPt × ℚ))
    (p : RawPt) (h : (parseTS p.timestamp).isSome = false) :
    scanStepRaw time1 acc p = acc := by
  unfold scanStepRaw
  cases hp : parseTS p.timestamp with
  | none => rfl
  | some t => rw [hp] at h; simp at h

/-- The scan sees only the parseable samples of `traj2`. -/
theorem scanClosestRaw_filter (time1 : ℚ) (traj2 : List RawPt) :
    scanClosestRaw time1 traj2 =
      scanClosestRaw time1
        (traj2.filter fun p => (parseTS p.timestamp).isSome) := by
  unfold scanClosestRaw
  exact foldl_filter_skip (scanStepRaw time1) _
    (fun b a ha => scanStepRaw_bad time1 b a ha) traj2 none

/-- Any sample the scan selects has a parseable timestamp. -/
theorem scanClosestRaw_good (time1 : ℚ) (traj2 : List RawPt) :
    ∀ (acc : Option (RawPt × ℚ)),
      (∀ q m, acc = some (q, m) → (parseTS q.timestamp).isSome = true) →
      ∀ q m, traj2.foldl (scanStepRaw time1) acc = some (q, m) →
        (parseTS q.timestamp).isSome = true := by
  induction traj2 with
  | nil => intro acc hacc q m hq; exact hacc q m hq
  | cons x xs ih =>
      intro acc hacc q m hq
      refine ih (scanStepRaw time1 acc x) ?_ q m hq
      intro q' m' hs
      unfold scanStepRaw at hs
      cases hp : parseTS x.timestamp with
      | none => rw [hp] at hs; exact hacc q' m' hs
      | some t2 =>
          rw [hp] at hs
          cases acc with
          | none =>
              simp only at hs
              by_cases hle : |time1 - t2| ≤ TIME_TOLERANCE
              · rw [if_pos hle] at hs
                simp only [Option.some.injEq, Prod.mk.injEq] at hs
                obtain ⟨h1, -⟩ := hs
                rw [← h1, hp]
                rfl
              · rw [if_neg hle] at hs
                exact hacc q' m' hs
          | some a =>
              obtain ⟨qa, ma⟩ := a
              simp only at hs
              by_cases hcond : |time1 - t2| < ma ∧ |time1 - t2| ≤ TIME_TOLERANCE
              · rw [if_pos hcond] at hs
                simp only [Option.some.injEq, Prod.mk.injEq] at hs
                obtain ⟨h1, -⟩ := hs
                rw [← h1, hp]
                rfl
              · rw [if_neg hcond] at hs
                exact hacc q' m' hs

/-- A `filterMap` whose function drops elements outside `good` equals the
`filterMap` over the `good`-filtered list. -/
theorem filterMap_congr_filter {α β : Type} (F : α → Option β)
    (good : α → Bool) (h : ∀ a, good a = false → F a = none) :
    ∀ l : List α, l.filterMap F = (l.filter good).filterMap F := by
  intro l
  induction l with
  | nil => rfl
  | cons x xs ih =>
      cases hx : good x with
      | false =>
          simp only [List.filterMap_cons, List.filter_cons, hx,
            Bool.false_eq_true, if_false, h x hx]
          exact ih
      | true =>
          simp only [List.filterMap_cons, List.filter_cons, hx, if_true]
          cases F x <;> simp [ih]

/-- C10: during time alignment, samples whose (string) timestamp cannot be
parsed are silently skipped: the result of `align_trajectories_by_time`
equals the result on the parseable samples alone, and no aligned pair —
hence no Conflict — ever involves an unparseable sample.  No error is
raised: the aligner is a total function. -/
theorem decon_C10_skip_unparseable (traj1 traj2 : List RawPt) :
    align_raw traj1 traj2 =
      align_raw (traj1.filter fun p => (parseTS p.timestamp).isSome)
        (traj2.filter fun p => (parseTS p.timestamp).isSome) ∧
    ∀ pr ∈ align_raw traj1 traj2,
      (parseTS pr.1.timestamp).isSome = true ∧
      (parseTS pr.2.timestamp).isSome = true := by
  constructor
  · by_cases h1 : traj1 = []
    · subst h1
      simp [align_raw]
    by_cases h2 : traj2 = []
    · subst h2
      simp [align_raw]
    have hb1 : traj1.isEmpty = false := by simpa using h1
    have hb2 : traj2.isEmpty = false := by simpa using h2
    by_cases hG2 : traj2.filter (fun p => (parseTS p.timestamp).isSome) = []
    · have hscan : ∀ t, scanClosestRaw t traj2 = none := by
        intro t
        rw [scanClosestRaw_filter t traj2, hG2]
        rfl
      rw [align_raw, align_raw]
      simp only [hb1, hb2, hG2, Bool.or_self, Bool.false_eq_true, if_false,
        List.isEmpty_nil, Bool.or_true, if_true]
      refine List.filterMap_eq_nil_iff.mpr ?_
      intro a _
      cases hp : parseTS a.timestamp with
      | none => simp [hp]
      | some t => simp [hp, hscan t]
    · by_cases hG1 : traj1.filter
          (fun p => (parseTS p.timestamp).isSome) = []
      · rw [align_raw, align_raw]
        simp only [hb1, hb2, hG1, Bool.or_self, Bool.false_eq_true,
          if_false, List.isEmpty_nil, Bool.true_or, if_true]
        refine List.filterMap_eq_nil_iff.mpr ?_
        intro a ha
        have hbad := List.filter_eq_nil_iff.mp hG1 a ha
        cases hp : parseTS a.timestamp with
        | none => simp [hp]
        | some t => rw [hp] at hbad; simp at hbad
      · have hb1' : (traj1.filter
            (fun p => (parseTS p.timestamp).isSome)).isEmpty = false := by
          simpa using hG1
        have hb2' : (traj2.filter
            (fun p => (parseTS p.timestamp).isSome)).isEmpty = false := by
          simpa using hG2
        have hscan : ∀ t, scanClosestRaw t traj2 = scanClosestRaw t
            (traj2.filter fun p => (parseTS p.timestamp).isSome) :=
          fun t => scanClosestRaw_filter t traj2
        rw [align_raw, align_raw]
        simp only [hb1, hb2, hb1', hb2', Bool.or_self, Bool.false_eq_true,
          if_false]
        simp only [hscan]
        refine filterMap_congr_filter _ _ ?_ traj1
        intro a ha
        cases hp : parseTS a.timestamp with
        | none => simp [hp]
        | some t => rw [hp] at ha; simp at ha
  · intro pr hpr
    rw [align_raw] at hpr
    by_cases hguard : (traj1.isEmpty || traj2.isEmpty) = true
    · rw [if_pos hguard] at hpr
      simp at hpr
    · rw [if_neg hguard] at hpr
      obtain ⟨p1, hp1, hF⟩ := List.mem_filterMap.mp hpr
      cases hparse : parseTS p1.timestamp with
      | none => rw [hparse] at hF; exact absurd hF (by simp)
      | some t =>
          rw [hparse] at hF
          simp only at hF
          cases hscan : scanClosestRaw t traj2 with
          | none => rw [hscan] at hF; exact absurd hF (by simp)
          | some a =>
              obtain ⟨p2, m⟩ := a
              rw [hscan] at hF
              simp only at hF
              by_cases hm : m ≤ TIME_TOLERANCE
              · rw [if_pos hm] at hF
                simp only [Option.some.injEq] at hF
                rw [← hF]
                refine ⟨by rw [hparse]; rfl, ?_⟩
                exact scanClosestRaw_good t traj2 none
                  (by intro q m' hqm; exact absurd hqm (by simp)) p2 m hscan
              · rw [if_neg hm] at hF
                exact absurd hF (by simp)

/-! ## C6 -/

/-- C6 counterexample: the store round-trip is not exact.  Committing a
sample at t = 10.5 and querying the window `[10.5, 10.5]` returns the
sample with timestamp 10: `strftime('%Y-%m-%d %H:%M:%S')` truncated the
stored timestamp to the whole second, so the returned timestamps differ
from the committed ones. -/
theorem decon_C6_cex :
    get_future_trajectories
        (store_future_trajectory dbEmpty 3 trajC6 none) (21/2) (21/2)
      = [(3, [⟨3, 10, (1, 2, 3), 0, none, false⟩])] ∧
    (10 : ℚ) ≠ 21/2 := by
  have hf : ⌊(21/2 : ℚ)⌋ = 10 := by norm_num [Int.floor_eq_iff]
  norm_num [get_future_trajectories, store_future_trajectory, ptToRow,
    dbEmpty, trajC6, rowToPt, hf, List.insertionSort, List.orderedInsert,
    List.dedup_cons_of_not_mem, List.filter_cons]

/-- `getLast? = some g` implies membership. -/
theorem mem_of_getLast?_eq {α : Type} {l : List α} {g : α}
    (hg : l.getLast? = some g) : g ∈ l := by
  obtain ⟨h, rfl⟩ :=
    List.mem_getLast?_eq_getLast (show g ∈ l.getLast? from hg)
  exact List.getLast_mem h

/-- In a `≤`-pairwise list the head bounds every element from below. -/
theorem pairwise_le_head (l : List ℚ) (x : ℚ) (hx : l.head? = some x)
    (h : List.Pairwise (· ≤ ·) l) : ∀ y ∈ l, x ≤ y := by
  cases l with
  | nil => simp at hx
  | cons a l =>
      simp only [List.head?_cons, Option.some.injEq] at hx
      subst hx
      intro y hy
      rcases List.mem_cons.mp hy with rfl | hy
      · exact le_refl y
      · exact (List.pairwise_cons.mp h).1 y hy

/-- In a `≤`-pairwise list the last element bounds every element from above. -/
theorem pairwise_le_getLast (l : List ℚ) (g : ℚ) (hg : l.getLast? = some g)
    (h : List.Pairwise (· ≤ ·) l) : ∀ y ∈ l, y ≤ g := by
  induction l with
  | nil => simp at hg
  | cons a l ih =>
      intro y hy
      cases l with
      | nil =>
          rw [List.getLast?_singleton] at hg
          simp only [Option.some.injEq] at hg
          subst hg
          simp only [List.mem_singleton] at hy
          subst hy
          exact le_refl y
      | cons b l' =>
          rw [List.getLast?_cons_cons] at hg
          rcases List.mem_cons.mp hy with rfl | hy
          · exact (List.pairwise_cons.mp h).1 g
              (mem_of_getLast?_eq hg)
          · exact ih hg (List.pairwise_cons.mp h).2 y hy

/-- Looking up a key present in `ids` in the tabulated association list. -/
theorem mapLookup_map_self {α : Type} (D : ℕ) (ids : List ℕ) (f : ℕ → α)
    (h : D ∈ ids) : mapLookup D (ids.map fun d => (d, f d)) = some (f D) := by
  induction ids with
  | nil => simp at h
  | cons x xs ih =>
      simp only [List.map_cons, mapLookup]
      by_cases hx : x = D
      · subst hx
        simp
      · rw [if_neg hx]
        refine ih ?_
        rcases List.mem_cons.mp h with rfl | hm
        · exact absurd rfl hx
        · exact hm

/-- What `get_future_trajectories` returns under one drone's key: the
window rows of that drone, already sorted by timestamp, mapped back to
samples. -/
theorem query_lookup (db' : DB) (D : ℕ) (s e : ℚ) (LD : List FutRow)
    (hDrows : ((db'.future.filter fun r =>
        decide ((((⌊s⌋ : ℤ) : ℚ)) ≤ r.timestamp) &&
        decide (r.timestamp ≤ (((⌊e⌋ : ℤ) : ℚ)))).filter fun r =>
          decide (r.drone_id = D)) = LD)
    (hne : LD ≠ [])
    (hsorted : List.Pairwise (fun a b => a.timestamp ≤ b.timestamp) LD) :
    mapLookup D (get_future_trajectories db' s e) =
      some (LD.map rowToPt) := by
  have hmem : D ∈ List.insertionSort (· ≤ ·)
      ((db'.future.filter fun r =>
        decide ((((⌊s⌋ : ℤ) : ℚ)) ≤ r.timestamp) &&
        decide (r.timestamp ≤ (((⌊e⌋ : ℤ) : ℚ)))).map
          (fun r => r.drone_id)).dedup := by
    rw [(List.perm_insertionSort _ _).mem_iff, List.mem_dedup]
    obtain ⟨r, hr⟩ : ∃ r, r ∈ LD := by
      cases LD with
      | nil => exact absurd rfl hne
      | cons a l => exact ⟨a, List.mem_cons_self a l⟩
    rw [← hDrows] at hr
    have hr1 := List.mem_filter.mp hr
    have hr2 : r.drone_id = D := by simpa using hr1.2
    rw [← hr2]
    exact List.mem_map_of_mem _ hr1.1
  rw [get_future_trajectories]
  rw [mapLookup_map_self D _ _ hmem]
  rw [hDrows, List.Sorted.insertionSort_eq hsorted]

/-- C6 (amended): committing a time-sorted trajectory `T` whose points all
carry drone id `D` and then querying the window `[T[0].time, T[-1].time]`
returns, under key `D`, exactly the samples of `T` in order with every
field preserved except the timestamp, which comes back truncated to the
whole second (`rowToPt (ptToRow m p)` is `p` with `⌊timestamp⌋`).  When
every timestamp of `T` is already a whole second, the round-trip returns
`T` exactly. -/
theorem decon_C6_amended (db : DB) (D : ℕ) (T : List Pt) (m : Option ℕ)
    (s0 e0 : ℚ)
    (hhead : (T.map Pt.timestamp).head? = some s0)
    (hlast : (T.map Pt.timestamp).getLast? = some e0)
    (hid : ∀ p ∈ T, p.drone_id = D)
    (hsort : List.Chain' (· ≤ ·) (T.map Pt.timestamp)) :
    mapLookup D (get_future_trajectories
        (store_future_trajectory db D T m) s0 e0) =
      some (T.map fun p => rowToPt (ptToRow m p)) ∧
    ((∀ p ∈ T, ((⌊p.timestamp⌋ : ℤ) : ℚ) = p.timestamp) →
      mapLookup D (get_future_trajectories
        (store_future_trajectory db D T m) s0 e0) = some T) := by
  have hTne : T ≠ [] := by
    intro h
    rw [h] at hhead
    simp at hhead
  have hpair := List.chain'_iff_pairwise.mp hsort
  have hlo : ∀ p ∈ T, s0 ≤ p.timestamp := fun p hp =>
    pairwise_le_head _ _ hhead hpair _ (List.mem_map_of_mem _ hp)
  have hhi : ∀ p ∈ T, p.timestamp ≤ e0 := fun p hp =>
    pairwise_le_getLast _ _ hlast hpair _ (List.mem_map_of_mem _ hp)
  have hTpair : List.Pairwise (fun p q : Pt =>
      p.timestamp ≤ q.timestamp) T := List.pairwise_map.mp hpair
  have hrowsort : List.Pairwise (fun a b : FutRow =>
      a.timestamp ≤ b.timestamp) (T.map (ptToRow m)) := by
    refine List.Pairwise.map _ ?_ hTpair
    intro a b hab
    simp only [ptToRow]
    exact_mod_cast Int.floor_le_floor hab
  have hwin : (T.map (ptToRow m)).filter (fun r =>
      decide ((((⌊s0⌋ : ℤ) : ℚ)) ≤ r.timestamp) &&
      decide (r.timestamp ≤ (((⌊e0⌋ : ℤ) : ℚ)))) = T.map (ptToRow m) := by
    refine List.filter_eq_self.mpr ?_
    intro r hr
    obtain ⟨p, hp, rfl⟩ := List.mem_map.mp hr
    simp only [ptToRow, Bool.and_eq_true, decide_eq_true_eq]
    constructor
    · exact_mod_cast Int.floor_le_floor (hlo p hp)
    · exact_mod_cast Int.floor_le_floor (hhi p hp)
  have hDrows : (((store_future_trajectory db D T m).future.filter fun r =>
      decide ((((⌊s0⌋ : ℤ) : ℚ)) ≤ r.timestamp) &&
      decide (r.timestamp ≤ (((⌊e0⌋ : ℤ) : ℚ)))).filter fun r =>
        decide (r.drone_id = D)) = T.map (ptToRow m) := by
    simp only [store_future_trajectory, List.filter_append, hwin]
    have h1 : ((db.future.filter fun r =>
        decide (r.drone_id ≠ D)).filter fun r =>
        decide ((((⌊s0⌋ : ℤ) : ℚ)) ≤ r.timestamp) &&
        decide (r.timestamp ≤ (((⌊e0⌋ : ℤ) : ℚ)))).filter (fun r =>
          decide (r.drone_id = D)) = [] := by
      refine List.filter_eq_nil_iff.mpr ?_
      intro r hr
      have := (List.mem_filter.mp (List.mem_filter.mp hr).1).2
      simp only [decide_eq_true_eq] at this ⊢
      exact this
    rw [h1, List.nil_append]
    refine List.filter_eq_self.mpr ?_
    intro r hr
    obtain ⟨p, hp, rfl⟩ := List.mem_map.mp hr
    simpa [ptToRow] using hid p hp
  have hrowsne : T.map (ptToRow m) ≠ [] := by
    simpa using hTne
  have hmain := query_lookup (store_future_trajectory db D T m) D s0 e0
    (T.map (ptToRow m)) hDrows hrowsne hrowsort
  rw [List.map_map] at hmain
  constructor
  · exact hmain
  · intro hwhole
    rw [hmain]
    congr 1
    refine List.map_congr_left ?_ |>.trans (List.map_id T)
    intro p hp
    have := hwhole p hp
    cases p with
    | mk a b c d e f =>
        simpa [Function.comp, rowToPt, ptToRow] using this

/-- Witness for `decon_C6_amended`: two samples of drone 4 at t = 2 and
t = 3.5 committed into the empty store. -/
theorem decon_C6_amended_witness :
    (([⟨4, 2, ((1 : ℚ), (0 : ℚ), (0 : ℚ)), 0, none, false⟩,
       ⟨4, 7/2, ((2 : ℚ), (0 : ℚ), (0 : ℚ)), 1, none, true⟩] :
        List Pt).map Pt.timestamp).head? = some 2 ∧
    (([⟨4, 2, ((1 : ℚ), (0 : ℚ), (0 : ℚ)), 0, none, false⟩,
       ⟨4, 7/2, ((2 : ℚ), (0 : ℚ), (0 : ℚ)), 1, none, true⟩] :
        List Pt).map Pt.timestamp).getLast? = some (7/2) ∧
    (∀ p ∈ ([⟨4, 2, ((1 : ℚ), (0 : ℚ), (0 : ℚ)), 0, none, false⟩,
       ⟨4, 7/2, ((2 : ℚ), (0 : ℚ), (0 : ℚ)), 1, none, true⟩] : List Pt),
      p.drone_id = 4) ∧
    List.Chain' (· ≤ ·)
      (([⟨4, 2, ((1 : ℚ), (0 : ℚ), (0 : ℚ)), 0, none, false⟩,
        ⟨4, 7/2, ((2 : ℚ), (0 : ℚ), (0 : ℚ)), 1, none, true⟩] :
         List Pt).map Pt.timestamp) ∧
    mapLookup 4 (get_future_trajectories
        (store_future_trajectory dbEmpty 4
          [⟨4, 2, ((1 : ℚ), (0 : ℚ), (0 : ℚ)), 0, none, false⟩,
           ⟨4, 7/2, ((2 : ℚ), (0 : ℚ), (0 : ℚ)), 1, none, true⟩] none)
        2 (7/2)) =
      some (([⟨4, 2, ((1 : ℚ), (0 : ℚ), (0 : ℚ)), 0, none, false⟩,
        ⟨4, 7/2, ((2 : ℚ), (0 : ℚ), (0 : ℚ)), 1, none, true⟩] :
         List Pt).map fun p => rowToPt (ptToRow none p)) := by
  have h1 : (([⟨4, 2, ((1 : ℚ), (0 : ℚ), (0 : ℚ)), 0, none, false⟩,
      ⟨4, 7/2, ((2 : ℚ), (0 : ℚ), (0 : ℚ)), 1, none, true⟩] :
       List Pt).map Pt.timestamp).head? = some 2 := by simp
  have h2 : (([⟨4, 2, ((1 : ℚ), (0 : ℚ), (0 : ℚ)), 0, none, false⟩,
      ⟨4, 7/2, ((2 : ℚ), (0 : ℚ), (0 : ℚ)), 1, none, true⟩] :
       List Pt).map Pt.timestamp).getLast? = some (7/2) := by simp
  have h3 : ∀ p ∈ ([⟨4, 2, ((1 : ℚ), (0 : ℚ), (0 : ℚ)), 0, none, false⟩,
      ⟨4, 7/2, ((2 : ℚ), (0 : ℚ), (0 : ℚ)), 1, none, true⟩] : List Pt),
      p.drone_id = 4 := by
    intro p hp
    rcases List.mem_cons.mp hp with rfl | hp
    · rfl
    · rw [List.mem_singleton] at hp
      subst hp
      rfl
  have h4 : List.Chain' (· ≤ ·)
      (([⟨4, 2, ((1 : ℚ), (0 : ℚ), (0 : ℚ)), 0, none, false⟩,
        ⟨4, 7/2, ((2 : ℚ), (0 : ℚ), (0 : ℚ)), 1, none, true⟩] :
         List Pt).map Pt.timestamp) := by
    norm_num [List.chain'_cons]
  exact ⟨h1, h2, h3, h4,
    (decon_C6_amended dbEmpty 4
      [⟨4, 2, ((1 : ℚ), (0 : ℚ), (0 : ℚ)), 0, none, false⟩,
       ⟨4, 7/2, ((2 : ℚ), (0 : ℚ), (0 : ℚ)), 1, none, true⟩] none 2 (7/2)
      h1 h2 h3 h4).1⟩
